import Mathlib

/-!
Verification of the streamlink-remote server's session-management core.

The definitions below are a shallow embedding of the JavaScript sources:

* `server/streamlink.js` — `StreamlinkManager`: the session registry
  (`activeStreams`), client presence tracking (`clientConnections`),
  the cyclic port allocator (`getNextPort`), the idle auto-stop sweep
  (`_checkAutoStop`), eviction candidate selection
  (`getOldestStreamWithoutClients`), `startStream` and `stopStream`.
* the express server file — the `/stream/:channel` on-demand route with its
  capacity/eviction branch, the `/api/stream/start` route, and the numeric
  stream-id quality-offset codec of the Xtream routes
  (`QUALITY_OFFSET_720P/480P`, `addStreamEntry`, `/live/.../:streamId`).
* `server/ytdlp.js` — `RecordingManager`: `checkRecordingRules`,
  `shouldRecord`, `startRecording`/`stopRecording` ownership, and
  `cleanupOldRecordings`.

JavaScript `Map`s are modelled as association lists in insertion order
(`mapGet`/`mapSet`/`mapDelete`), timestamps (`Date.now()`) as `Nat`
milliseconds, and `String.prototype.toLowerCase()` as ASCII lowercasing
(`lowerStr`; channel logins are ASCII).  Asynchronous process completion is
modelled by explicit resolve/exit steps (`startResolve`, `processExit`):
spawning is a synchronous step, registration in the registry happens at the
separate resolution step, and removal at the separate process-exit step,
exactly as the event handlers in the source do.
-/

/-- ASCII lowercase of one character; models what `toLowerCase()` does on the
ASCII range used by channel names. -/
def lowerChar (c : Char) : Char :=
  if 65 ≤ c.toNat ∧ c.toNat ≤ 90 then Char.ofNat (c.toNat + 32) else c

/-- ASCII lowercase of a string; models `String.prototype.toLowerCase()`. -/
def lowerStr (s : String) : String := ⟨s.data.map lowerChar⟩

/-- `leadsWith needle hay` — the needle is an initial segment of the hay. -/
def leadsWith : List Char → List Char → Bool
  | [], _ => true
  | _ :: _, [] => false
  | a :: as, b :: bs => a == b && leadsWith as bs

/-- Substring test on character lists. -/
def containsSub (needle hay : List Char) : Bool :=
  match hay with
  | [] => needle.isEmpty
  | _ :: t => leadsWith needle hay || containsSub needle t

/-- `strIncludes s sub` models JavaScript `s.includes(sub)`. -/
def strIncludes (s sub : String) : Bool := containsSub sub.data s.data

/-- Lookup in a JavaScript `Map` modelled as an association list
(`Map.prototype.get`). -/
def mapGet {α : Type} (m : List (String × α)) (k : String) : Option α :=
  match m with
  | [] => none
  | (k', v) :: t => if k' = k then some v else mapGet t k

/-- `Map.prototype.set`: replace in place if the key is present, otherwise
append at the end (JS `Map`s preserve insertion order). -/
def mapSet {α : Type} (m : List (String × α)) (k : String) (v : α) :
    List (String × α) :=
  match m with
  | [] => [(k, v)]
  | (k', v') :: t => if k' = k then (k, v) :: t else (k', v') :: mapSet t k v

/-- `Map.prototype.delete`: drop the entry stored under `k` (a `Map` holds a
key at most once, so dropping every occurrence is the same thing). -/
def mapDelete {α : Type} (m : List (String × α)) (k : String) :
    List (String × α) :=
  match m with
  | [] => []
  | (k', v) :: t => if k' = k then mapDelete t k else (k', v) :: mapDelete t k

/-- A `Map` never holds the same key twice; states built through
`mapSet`/`mapDelete` keep this. -/
def nodupKeys {α : Type} (m : List (String × α)) : Prop :=
  (m.map Prod.fst).Nodup

/-- Server configuration fields used by the session manager: the stream port
range `[streamPortStart, streamPortEnd]`, the host streams are served on and
the default quality (`config.defaultQuality`). -/
structure ServerConfig where
  streamPortStart : Nat
  streamPortEnd : Nat
  host : String
  defaultQuality : String
deriving Repr, DecidableEq

/-- One entry of `this.clientConnections`:
`channel -> { count, lastActivity }`.  The count is an integer (JS number)
so that the non-negativity claim is meaningful. -/
structure ClientInfo where
  count : Int
  lastActivity : Nat
deriving Repr, DecidableEq

/-- One entry of `this.activeStreams` (the `streamData` object built in
`startStream`, minus the process handle). -/
structure StreamData where
  channel : String
  quality : String
  port : Nat
  url : String
  startedAt : Nat
deriving Repr, DecidableEq

/-- The mutable state of `StreamlinkManager`: the session registry, the
presence tracker and the port-pool cursor. -/
structure ManagerState where
  activeStreams : List (String × StreamData)
  clientConnections : List (String × ClientInfo)
  nextPort : Nat
deriving Repr, DecidableEq

/-- `this.autoStopTimeout = 120000` — both the minimum session age and the
idle threshold of the auto-stop sweep (2 minutes). -/
def autoStopTimeoutMs : Nat := 120000

/-- `trackClientConnect(channel)`: increment the reference count and refresh
`lastActivity`, creating the record (count 1) on first attach.  The record is
keyed by the lowercased channel. -/
def trackClientConnect (s : ManagerState) (channel : String) (now : Nat) :
    ManagerState :=
  let key := lowerStr channel
  match mapGet s.clientConnections key with
  | some ci =>
      { s with clientConnections :=
          mapSet s.clientConnections key ⟨ci.count + 1, now⟩ }
  | none =>
      { s with clientConnections :=
          mapSet s.clientConnections key ⟨1, now⟩ }

/-- `trackClientDisconnect(channel)`: decrement the count and refresh
`lastActivity`, but only when a record exists with a positive count
(`existing && existing.count > 0`). -/
def trackClientDisconnect (s : ManagerState) (channel : String) (now : Nat) :
    ManagerState :=
  let key := lowerStr channel
  match mapGet s.clientConnections key with
  | some ci =>
      if 0 < ci.count then
        { s with clientConnections :=
            mapSet s.clientConnections key ⟨ci.count - 1, now⟩ }
      else s
  | none => s

/-- `getNextPort()`: hand out the cursor, advance it by one, and wrap back to
`streamPortStart` once it passes `streamPortEnd`. -/
def getNextPort (cfg : ServerConfig) (s : ManagerState) : Nat × ManagerState :=
  let port := s.nextPort
  let next := s.nextPort + 1
  (port,
   { s with nextPort :=
       if cfg.streamPortEnd < next then cfg.streamPortStart else next })

/-- The activity test of `getOldestStreamWithoutClients`:
`clientInfo && (now - clientInfo.lastActivity < 60000)` with the lowercased
channel as key. -/
def hasRecentActivity (s : ManagerState) (now : Nat) (channel : String) :
    Bool :=
  match mapGet s.clientConnections (lowerStr channel) with
  | some ci => decide (now - ci.lastActivity < 60000)
  | none => false

/-- `startedAt < oldestTime` where the accumulator `none` plays the role of
`oldestTime = Infinity`. -/
def accBeats (acc : Option (String × Nat)) (t : Nat) : Bool :=
  match acc with
  | none => true
  | some (_, t0) => decide (t < t0)

/-- One iteration of the oldest-scan loop: replace the accumulator when the
entry passes the filter and strictly improves on the recorded start time
(`!hasRecentActivity && streamData.startedAt < oldestTime`). -/
def oldestStep (p : String → StreamData → Bool)
    (acc : Option (String × Nat)) (e : String × StreamData) :
    Option (String × Nat) :=
  if p e.1 e.2 && accBeats acc e.2.startedAt then
    some (e.1, e.2.startedAt)
  else acc

/-- The oldest-scan loop over the registry entries in insertion order. -/
def oldestScan (p : String → StreamData → Bool)
    (l : List (String × StreamData)) : Option (String × Nat) :=
  l.foldl (oldestStep p) none

/-- `getOldestStreamWithoutClients()`: the oldest session (by `startedAt`)
among those without presence activity in the last 60 seconds. -/
def getOldestStreamWithoutClients (s : ManagerState) (now : Nat) :
    Option String :=
  (oldestScan (fun ch _ => !(hasRecentActivity s now ch))
      s.activeStreams).map Prod.fst

/-- The fallback of the on-demand route when every session has recent
activity: `activeStreams.sort((a, b) => a.startedAt - b.startedAt)[0]` — the
first entry with globally minimal `startedAt` (the sort is stable). -/
def globallyOldestChannel (s : ManagerState) : Option String :=
  (oldestScan (fun _ _ => true) s.activeStreams).map Prod.fst

/-- One iteration of `_checkAutoStop`'s loop over `activeStreams`: skip
sessions younger than `autoStopTimeout`; otherwise stop the stream and drop
its presence record when the record is absent or stale.  Note that the source
looks the record up under the RAW channel key here (`clientConnections.get(
channel)`), unlike `trackClientConnect`, which stores it under the lowercased
key. -/
def presenceStale (conns : List (String × ClientInfo)) (channel : String)
    (now : Nat) : Bool :=
  match mapGet conns channel with
  | none => true
  | some ci => decide (autoStopTimeoutMs < now - ci.lastActivity)

def autoStopStep (now : Nat) (acc : ManagerState × List String)
    (e : String × StreamData) : ManagerState × List String :=
  if now - e.2.startedAt < autoStopTimeoutMs then acc
  else if presenceStale acc.1.clientConnections e.1 now then
    ({ acc.1 with clientConnections := mapDelete acc.1.clientConnections e.1 },
     acc.2 ++ [e.1])
  else acc

/-- `_checkAutoStop()`: one sweep of the idle reaper.  Returns the updated
state together with the channels whose streams get stopped during the sweep
(`stopStream` is invoked on each; the registry entries themselves are removed
later by the process-exit handlers). -/
def checkAutoStop (s : ManagerState) (now : Nat) :
    ManagerState × List String :=
  s.activeStreams.foldl (autoStopStep now) (s, [])

/-- The signals `stopStream` and its grace timer can send. -/
inductive KillSignal where
  | sigterm
  | sigkill
deriving Repr, DecidableEq

/-- The value `stopStream` returns to its caller. -/
structure StopResult where
  success : Bool
  error : Option String
deriving Repr, DecidableEq

/-- `stopStream(channel)`: look the session up; when absent return
`{ success: false, error: "Stream not running" }` without touching anything;
when present send `SIGTERM` and report success.  The registry entry is not
removed here — that happens in the process `close` handler (`processExit`).
The result lists the signals sent synchronously by this call. -/
def stopStream (s : ManagerState) (channel : String) :
    StopResult × List KillSignal :=
  match mapGet s.activeStreams channel with
  | none => ({ success := false, error := some "Stream not running" }, [])
  | some _ => ({ success := true, error := none }, [KillSignal.sigterm])

/-- The 5-second grace escalation scheduled by `stopStream`: when it fires it
sends `SIGKILL` only if the session is still in the registry. -/
def forceKillCheck (s : ManagerState) (channel : String) : List KillSignal :=
  if (mapGet s.activeStreams channel).isSome then [KillSignal.sigkill] else []

/-- The process `close` handler of `startStream`: on any exit the session is
removed from `activeStreams` (and a `stream:ended` event is emitted). -/
def processExit (s : ManagerState) (channel : String) : ManagerState :=
  { s with activeStreams := mapDelete s.activeStreams channel }

/-- What a call to `startStream` reports back. -/
inductive StartOutcome where
  | alreadyRunning (port : Nat) (url : String)
  | spawned (port : Nat) (url : String)
deriving Repr, DecidableEq

/-- State of the manager together with the spawns currently in flight.  Each
pending entry is the `streamData` closure of one `startStream` promise that
has spawned but not yet resolved; the source consults only `activeStreams`,
never this list, when deciding whether to spawn.  `spawnCount` counts the
`spawn(...)` calls made. -/
structure SpawnState where
  mgr : ManagerState
  pendingSpawns : List StreamData
  spawnCount : Nat
deriving Repr, DecidableEq

/-- The URL built by `startStream`: `http://host:port/`. -/
def streamUrl (cfg : ServerConfig) (port : Nat) : String :=
  "http://" ++ cfg.host ++ ":" ++ toString port ++ "/"

/-- The synchronous prefix of `startStream(channel, quality)`: if the channel
is in `activeStreams` return the existing session (`alreadyRunning`);
otherwise take the next port, spawn the process (one more pending spawn) and
return.  Registration in `activeStreams` only happens later, at
`startResolve` — there is no pending-start marker consulted here. -/
def startRequest (cfg : ServerConfig) (st : SpawnState) (channel : String)
    (quality : Option String) (now : Nat) : StartOutcome × SpawnState :=
  match mapGet st.mgr.activeStreams channel with
  | some existing => (.alreadyRunning existing.port existing.url, st)
  | none =>
      let streamQuality := quality.getD cfg.defaultQuality
      let pm := getNextPort cfg st.mgr
      let url := streamUrl cfg pm.1
      let sd : StreamData :=
        { channel := channel, quality := streamQuality, port := pm.1,
          url := url, startedAt := now }
      (.spawned pm.1 url,
       { mgr := pm.2, pendingSpawns := st.pendingSpawns ++ [sd],
         spawnCount := st.spawnCount + 1 })

/-- `resolveSuccess` for the pending spawn of `channel` (readiness marker seen
or the 3-second fallback fired): move the closure's `streamData` into
`activeStreams` and emit `stream:started`. -/
def startResolve (st : SpawnState) (channel : String) : SpawnState :=
  match st.pendingSpawns.find? (fun p => decide (p.channel = channel)) with
  | none => st
  | some sd =>
      { st with
        mgr := { st.mgr with
                 activeStreams := mapSet st.mgr.activeStreams channel sd },
        pendingSpawns :=
          st.pendingSpawns.eraseP (fun p => decide (p.channel = channel)) }

/-- `maxStreams` as computed in the on-demand route:
`streamPortEnd - streamPortStart + 1`. -/
def maxStreams (cfg : ServerConfig) : Nat :=
  cfg.streamPortEnd - cfg.streamPortStart + 1

/-- The session the on-demand route evicts when the registry is full: the
oldest session without recent clients when one exists, otherwise the globally
oldest session. -/
def evictionVictim (s : ManagerState) (now : Nat) : Option String :=
  match getOldestStreamWithoutClients s now with
  | some ch => some ch
  | none => globallyOldestChannel s

/-- The admission decision of the `/stream/:channel` route: at capacity it
picks the eviction victim and waits 500 ms before the new start; below
capacity it starts immediately. -/
structure AdmissionDecision where
  victim : Option String
  waitMs : Nat
deriving Repr, DecidableEq

/-- The capacity branch of the `/stream/:channel` route. -/
def onDemandAdmission (cfg : ServerConfig) (s : ManagerState) (now : Nat) :
    AdmissionDecision :=
  if maxStreams cfg ≤ s.activeStreams.length then
    { victim := evictionVictim s now, waitMs := 500 }
  else
    { victim := none, waitMs := 0 }

/-- `startStream` compressed to its successful resolution: the synchronous
registry check followed by the spawn confirming readiness and registering the
session.  This is what both HTTP start routes invoke. -/
def startStreamResolved (cfg : ServerConfig) (s : ManagerState)
    (channel : String) (quality : Option String) (now : Nat) : ManagerState :=
  if (mapGet s.activeStreams channel).isSome then s
  else
    let pm := getNextPort cfg s
    let sd : StreamData :=
      { channel := channel, quality := quality.getD cfg.defaultQuality,
        port := pm.1, url := streamUrl cfg pm.1, startedAt := now }
    { pm.2 with activeStreams := mapSet pm.2.activeStreams channel sd }

/-- The `/stream/:channel` on-demand route, under the assumption that the
evicted process exits within the 500 ms wait (its `close` handler removes it
from the registry) and that the new spawn resolves successfully: redirect to
a running session (tracking the client), otherwise evict when at capacity and
then start.  The `/api/stream/start` route, by contrast, calls
`startStreamResolved` directly with no capacity branch. -/
def onDemandStartResolved (cfg : ServerConfig) (s : ManagerState)
    (channel : String) (quality : Option String) (now : Nat) : ManagerState :=
  if (mapGet s.activeStreams channel).isSome then
    trackClientConnect s channel now
  else
    let s1 :=
      if maxStreams cfg ≤ s.activeStreams.length then
        match evictionVictim s now with
        | some victim => processExit s victim
        | none => s
      else s
    startStreamResolved cfg s1 channel quality now

/-- The three quality bands of the numeric stream-id scheme. -/
inductive QualityBand where
  | default
  | p720
  | p480
deriving Repr, DecidableEq

/-- `const QUALITY_OFFSET_720P = 10000000000`. -/
def QUALITY_OFFSET_720P : Nat := 10000000000

/-- `const QUALITY_OFFSET_480P = 20000000000`. -/
def QUALITY_OFFSET_480P : Nat := 20000000000

/-- The offset each band adds to the provider-assigned base id. -/
def qualityOffset : QualityBand → Nat
  | .default => 0
  | .p720 => QUALITY_OFFSET_720P
  | .p480 => QUALITY_OFFSET_480P

/-- Encoding as done by `addStreamEntry`:
`streamId = user_id + streamIdOffset` (offset 0 for the default band). -/
def encodeStreamId (baseId : Nat) (band : QualityBand) : Nat :=
  baseId + qualityOffset band

/-- Decoding as done by the numeric branch of `/live/:username/:password/
:streamId`: test the offsets from largest to smallest and subtract the
matching one. -/
def decodeStreamId (n : Nat) : Nat × QualityBand :=
  if QUALITY_OFFSET_480P ≤ n then (n - QUALITY_OFFSET_480P, .p480)
  else if QUALITY_OFFSET_720P ≤ n then (n - QUALITY_OFFSET_720P, .p720)
  else (n, .default)

/-- A recording rule row as read from the persistence layer.  `game_name` is
`none` for SQL `NULL`; the JS falsy test also treats the empty string as
"no filter". -/
structure RecordingRule where
  id : Nat
  channel_login : String
  game_name : Option String
  quality : Option String
  enabled : Bool
deriving Repr, DecidableEq

/-- The live-stream object returned by the Twitch metadata client, reduced to
the fields the recording engine reads. -/
structure TwitchStream where
  user_login : String
  user_name : String
  game_name : Option String
  title : String
deriving Repr, DecidableEq

/-- One entry of `this.activeRecordings` (`recordingInfo` minus the process
handle). -/
structure RecordingInfo where
  ruleId : Nat
  channelLogin : String
  gameName : Option String
  streamTitle : String
  startedAt : Nat
deriving Repr, DecidableEq

/-- The mutable state of `RecordingManager` relevant to rule evaluation. -/
structure RecManagerState where
  activeRecordings : List (String × RecordingInfo)
deriving Repr, DecidableEq

/-- Externally visible actions of one rule evaluation. -/
inductive RecAction where
  | started (ruleId : Nat) (channel : String)
  | stopSignal (channel : String)
deriving Repr, DecidableEq

/-- `shouldRecord(rule, stream)`: no filter (NULL, empty or `"*"`) matches
anything; otherwise case-insensitive substring match in either direction
between the stream's game and the rule's game. -/
def shouldRecord (rule : RecordingRule) (stream : TwitchStream) : Bool :=
  match rule.game_name with
  | none => true
  | some g =>
      if g = "" ∨ g = "*" then true
      else
        let streamGame := lowerStr (stream.game_name.getD "")
        let ruleGame := lowerStr g
        strIncludes streamGame ruleGame || strIncludes ruleGame streamGame

/-- `startRecording(rule, stream)`: no-op when a recording is already active
for the channel; otherwise spawn the file-writing process and register the
recording (owned by `rule.id`) under the lowercased channel login. -/
def startRecordingModel (st : RecManagerState) (rule : RecordingRule)
    (stream : TwitchStream) (now : Nat) : RecManagerState × List RecAction :=
  let ch := lowerStr rule.channel_login
  if (mapGet st.activeRecordings ch).isSome then (st, [])
  else
    ({ activeRecordings :=
         mapSet st.activeRecordings ch
           { ruleId := rule.id, channelLogin := ch,
             gameName := stream.game_name, streamTitle := stream.title,
             startedAt := now } },
     [.started rule.id ch])

/-- `stopRecording(channelLogin)`: send `SIGTERM` to the recording process if
one is active; the registry entry is cleaned up later by the `close`
handler. -/
def stopRecordingModel (st : RecManagerState) (channelLogin : String) :
    RecManagerState × List RecAction :=
  match mapGet st.activeRecordings (lowerStr channelLogin) with
  | none => (st, [])
  | some _ => (st, [.stopSignal (lowerStr channelLogin)])

/-- One iteration of the `checkRecordingRules` loop for a single rule:
disabled rules are skipped; a live, matching stream starts a recording when
none is active for the channel; otherwise an active recording is stopped only
when it was started by this very rule (`recording.ruleId === rule.id`). -/
def evalRule (st : RecManagerState) (rule : RecordingRule)
    (liveStreams : List (String × TwitchStream)) (now : Nat) :
    RecManagerState × List RecAction :=
  if rule.enabled = false then (st, [])
  else
    let key := lowerStr rule.channel_login
    match mapGet liveStreams key with
    | some stream =>
        if shouldRecord rule stream then
          if (mapGet st.activeRecordings key).isSome then (st, [])
          else startRecordingModel st rule stream now
        else
          match mapGet st.activeRecordings key with
          | some recording =>
              if recording.ruleId = rule.id then
                stopRecordingModel st rule.channel_login
              else (st, [])
          | none => (st, [])
    | none =>
        match mapGet st.activeRecordings key with
        | some recording =>
            if recording.ruleId = rule.id then
              stopRecordingModel st rule.channel_login
            else (st, [])
        | none => (st, [])

/-- One aged recording row fetched by `getRecordingsOlderThan(cutoff)`,
together with the filesystem behaviour its deletion will meet:
`fileExists` is the `fs.existsSync` answer, `unlinkFails` whether
`fs.unlinkSync` would throw, `deleteRowFails` whether `db.deleteRecording`
would throw. -/
structure RecRecord where
  id : Nat
  filepath : String
  fileExists : Bool
  unlinkFails : Bool
  deleteRowFails : Bool
deriving Repr, DecidableEq

/-- One file found by the orphan scan of the output directory. -/
structure OrphanFile where
  name : String
  mtimeOld : Bool
  inDb : Bool
  unlinkFails : Bool
deriving Repr, DecidableEq

/-- Outcome of one `cleanupOldRecordings` sweep. -/
structure SweepResult where
  deletedRecordIds : List Nat
  deletedFiles : List String
  orphanScanRan : Bool
  errorLogged : Option String
deriving Repr, DecidableEq

/-- The aged-records loop of `cleanupOldRecordings`.  Each iteration deletes
the file (when it exists) and then the database row; a thrown error escapes
the loop (the `try` block encloses the whole sweep), leaving the remaining
entries untouched.  Returns deleted row ids, deleted files, and the escaped
error if any. -/
def sweepRecords : List RecRecord → List Nat × List String × Option String
  | [] => ([], [], none)
  | r :: rest =>
      if r.fileExists ∧ r.unlinkFails then
        ([], [], some ("unlink failed: " ++ r.filepath))
      else
        let filesHere := if r.fileExists then [r.filepath] else []
        if r.deleteRowFails then
          ([], filesHere, some "db delete failed")
        else
          let tail := sweepRecords rest
          (r.id :: tail.1, filesHere ++ tail.2.1, tail.2.2)

/-- The orphaned-files loop of `cleanupOldRecordings`: delete files older than
the cutoff that no database row references. -/
def sweepOrphans : List OrphanFile → List String × Option String
  | [] => ([], none)
  | f :: rest =>
      if f.mtimeOld ∧ f.inDb = false then
        if f.unlinkFails then ([], some ("unlink failed: " ++ f.name))
        else
          let tail := sweepOrphans rest
          (f.name :: tail.1, tail.2)
      else sweepOrphans rest

/-- `cleanupOldRecordings()`: one retention sweep.  Both loops run inside a
single `try { ... } catch` — the first error is caught and logged at sweep
level, so an error in the aged-records loop also skips the orphan scan; the
function itself always returns (the timer loop survives). -/
def cleanupOldRecordings (oldRecordings : List RecRecord)
    (dirFiles : List OrphanFile) : SweepResult :=
  let recPass := sweepRecords oldRecordings
  match recPass.2.2 with
  | some e =>
      { deletedRecordIds := recPass.1, deletedFiles := recPass.2.1,
        orphanScanRan := false, errorLogged := some e }
  | none =>
      let orphanPass := sweepOrphans dirFiles
      { deletedRecordIds := recPass.1,
        deletedFiles := recPass.2.1 ++ orphanPass.1,
        orphanScanRan := true, errorLogged := orphanPass.2 }

/-! Concrete states and configurations used by the witness and example
theorems below. -/

/-- A manager with no sessions and a fresh port cursor. -/
def mgrEmpty : ManagerState := ⟨[], [], 9000⟩

/-- A server configuration with an 11-port pool. -/
def cfgWide : ServerConfig := ⟨9000, 9010, "192.168.1.2", "best"⟩

/-- A server configuration whose pool holds a single port. -/
def cfgOne : ServerConfig := ⟨9000, 9000, "192.168.1.2", "best"⟩

/-- A server configuration with a 2-port pool. -/
def cfgTwo : ServerConfig := ⟨9000, 9001, "192.168.1.2", "best"⟩

/-- A server configuration with a 3-port pool. -/
def cfgThree : ServerConfig := ⟨9000, 9002, "192.168.1.2", "best"⟩

/-- An idle spawn state over `mgrEmpty`: nothing running, nothing in
flight. -/
def spawnIdle : SpawnState := ⟨mgrEmpty, [], 0⟩

/-- A session record for channel `"a"` started at time 1000 on port 9000. -/
def sdA : StreamData := ⟨"a", "best", 9000, "http://192.168.1.2:9000/", 1000⟩

/-- A session record for channel `"b"` started at time 2000 on port 9001. -/
def sdB : StreamData := ⟨"b", "best", 9001, "http://192.168.1.2:9001/", 2000⟩

/-- A manager whose single-slot pool is already full with session `"a"`. -/
def mgrFullOne : ManagerState := ⟨[("a", sdA)], [], 9000⟩

/-- A manager at capacity 2 where `"a"` is idle (no presence record) and
`"b"` was touched at time 199000. -/
def mgrFullTwo : ManagerState :=
  ⟨[("a", sdA), ("b", sdB)], [("b", ⟨1, 199000⟩)], 9000⟩

/-- A session stored under the mixed-case key `"Foo"`, started at time 0. -/
def sdFoo : StreamData := ⟨"Foo", "best", 9000, "http://192.168.1.2:9000/", 0⟩

/-- A manager holding the session `"Foo"` whose presence record — created by
`trackClientConnect("Foo")`, hence keyed `"foo"` — was refreshed at time
200000. -/
def mgrMixedCase : ManagerState :=
  ⟨[("Foo", sdFoo)], [("foo", ⟨1, 200000⟩)], 9001⟩

/-- A manager with one presence record (`"chan"`, two clients, last active at
time 1000) and a session for `"chan"` started at time 0. -/
def mgrTracked : ManagerState :=
  ⟨[("chan", ⟨"chan", "best", 9000, "http://192.168.1.2:9000/", 0⟩)],
   [("chan", ⟨2, 1000⟩)], 9001⟩

/-- An enabled rule 1 on channel `"streamer"` filtering for `"valorant"`. -/
def ruleOne : RecordingRule := ⟨1, "streamer", some "valorant", some "best", true⟩

/-- An enabled rule 2 on the same channel with no game filter. -/
def ruleTwo : RecordingRule := ⟨2, "streamer", none, some "best", true⟩

/-- A recording on `"streamer"` owned by rule 1, started at time 5000. -/
def recByRuleOne : RecordingInfo := ⟨1, "streamer", some "VALORANT", "t", 5000⟩

/-- A recording-manager state where rule 1's recording is active. -/
def recStateOne : RecManagerState := ⟨[("streamer", recByRuleOne)]⟩

/-- The channel is live playing Minecraft (matches rule 2, not rule 1). -/
def liveMinecraft : List (String × TwitchStream) :=
  [("streamer", ⟨"streamer", "Streamer", some "Minecraft", "building"⟩)]

/-- A recording on `"streamer"` owned by rule 2, started at time 5000. -/
def recByRuleTwo : RecordingInfo := ⟨2, "streamer", some "Minecraft", "b", 5000⟩

/-- A recording-manager state where rule 2's recording is active. -/
def recStateTwo : RecManagerState := ⟨[("streamer", recByRuleTwo)]⟩

/-- An aged recording whose file deletion will throw. -/
def recBad : RecRecord := ⟨1, "/recordings/bad.ts", true, true, false⟩

/-- An aged recording whose deletion would succeed. -/
def recGood : RecRecord := ⟨2, "/recordings/good.ts", true, false, false⟩

/-- An old unreferenced file in the output directory, deletable. -/
def orphanOld : OrphanFile := ⟨"stale.ts", true, false, false⟩

/-- The cursor update performed by one `getNextPort` call: advance by one,
wrapping back to `streamPortStart` past `streamPortEnd`. -/
def advanceCursor (cfg : ServerConfig) (c : Nat) : Nat :=
  if cfg.streamPortEnd < c + 1 then cfg.streamPortStart else c + 1

/-- The cursor value after `k` further `getNextPort` calls starting from
cursor `c`. -/
def iterAdvance (cfg : ServerConfig) (c : Nat) : Nat → Nat
  | 0 => c
  | k + 1 => iterAdvance cfg (advanceCursor cfg c) k

/-- The ports handed out by `n` successive `getNextPort` calls. -/
def portCalls (cfg : ServerConfig) (s : ManagerState) : Nat → List Nat
  | 0 => []
  | n + 1 => (getNextPort cfg s).1 :: portCalls cfg (getNextPort cfg s).2 n

/-- The number of ports in the configured pool. -/
def portWidth (cfg : ServerConfig) : Nat :=
  cfg.streamPortEnd - cfg.streamPortStart + 1

/-! Association-list (JS `Map`) lemmas. -/

theorem mapGet_mapSet_self {α : Type} (m : List (String × α)) (k : String)
    (v : α) : mapGet (mapSet m k v) k = some v := by
  induction m with
  | nil => simp [mapSet, mapGet]
  | cons h t ih =>
      obtain ⟨k', v'⟩ := h
      by_cases hk : k' = k
      · simp [mapSet, hk, mapGet]
      · simp [mapSet, hk, mapGet, ih]

theorem mapGet_mapSet_ne {α : Type} (m : List (String × α)) {k k' : String}
    (v : α) (h : k' ≠ k) : mapGet (mapSet m k v) k' = mapGet m k' := by
  have hk : k ≠ k' := Ne.symm h
  induction m with
  | nil => simp [mapSet, mapGet, hk]
  | cons e t ih =>
      obtain ⟨a, w⟩ := e
      by_cases ha : a = k
      · subst ha
        simp [mapSet, mapGet, hk]
      · simp [mapSet, ha, mapGet, ih]

theorem mapGet_mapDelete_self {α : Type} (m : List (String × α))
    (k : String) : mapGet (mapDelete m k) k = none := by
  induction m with
  | nil => simp [mapDelete, mapGet]
  | cons e t ih =>
      obtain ⟨a, w⟩ := e
      by_cases ha : a = k
      · simp [mapDelete, ha, ih]
      · simp [mapDelete, ha, mapGet, ih]

theorem mapGet_mapDelete_ne {α : Type} (m : List (String × α))
    {k k' : String} (h : k' ≠ k) :
    mapGet (mapDelete m k) k' = mapGet m k' := by
  have hk : k ≠ k' := Ne.symm h
  induction m with
  | nil => simp [mapDelete]
  | cons e t ih =>
      obtain ⟨a, w⟩ := e
      by_cases ha : a = k
      · subst ha
        simp [mapDelete, mapGet, hk, ih]
      · simp [mapDelete, ha, mapGet, ih]

theorem mapGet_eq_some_mem {α : Type} {m : List (String × α)} {k : String}
    {v : α} (h : mapGet m k = some v) : (k, v) ∈ m := by
  induction m with
  | nil => simp [mapGet] at h
  | cons e t ih =>
      obtain ⟨a, w⟩ := e
      by_cases ha : a = k
      · subst ha
        simp [mapGet] at h
        simp [h]
      · simp [mapGet, ha] at h
        exact List.mem_cons_of_mem _ (ih h)

theorem isSome_mapGet_of_mem {α : Type} {m : List (String × α)} {k : String}
    {v : α} (h : (k, v) ∈ m) : (mapGet m k).isSome := by
  induction m with
  | nil => simp at h
  | cons e t ih =>
      obtain ⟨a, w⟩ := e
      rcases List.mem_cons.mp h with h1 | h1
      · cases h1
        simp [mapGet]
      · by_cases ha : a = k
        · simp [mapGet, ha]
        · simp [mapGet, ha]
          exact ih h1

theorem mapGet_eq_none_of_not_mem_keys {α : Type} {m : List (String × α)}
    {k : String} (h : k ∉ m.map Prod.fst) : mapGet m k = none := by
  induction m with
  | nil => simp [mapGet]
  | cons e t ih =>
      obtain ⟨a, w⟩ := e
      rw [List.map_cons, List.mem_cons, not_or] at h
      have ha : a ≠ k := Ne.symm h.1
      simp [mapGet, ha, ih h.2]

theorem mapDelete_of_get_none {α : Type} {m : List (String × α)}
    {k : String} (h : mapGet m k = none) : mapDelete m k = m := by
  induction m with
  | nil => simp [mapDelete]
  | cons e t ih =>
      obtain ⟨a, w⟩ := e
      by_cases ha : a = k
      · simp [mapGet, ha] at h
      · simp [mapGet, ha] at h
        simp [mapDelete, ha, ih h]

theorem length_mapSet_absent {α : Type} {m : List (String × α)} {k : String}
    (v : α) (h : mapGet m k = none) :
    (mapSet m k v).length = m.length + 1 := by
  induction m with
  | nil => simp [mapSet]
  | cons e t ih =>
      obtain ⟨a, w⟩ := e
      by_cases ha : a = k
      · simp [mapGet, ha] at h
      · simp [mapGet, ha] at h
        simp [mapSet, ha, ih h]

theorem length_mapDelete_of_get {α : Type} {m : List (String × α)}
    {k : String} {v : α} (hnd : nodupKeys m) (h : mapGet m k = some v) :
    (mapDelete m k).length + 1 = m.length := by
  induction m with
  | nil => simp [mapGet] at h
  | cons e t ih =>
      obtain ⟨a, w⟩ := e
      have hnd' := hnd
      unfold nodupKeys at hnd'
      simp [List.nodup_cons] at hnd'
      by_cases ha : a = k
      · subst ha
        have : mapGet t a = none := by
          apply mapGet_eq_none_of_not_mem_keys
          intro hmem
          rcases List.mem_map.mp hmem with ⟨p, hp, hfst⟩
          exact hnd'.1 p.2 (by
            have : p = (a, p.2) := by
              cases p
              simp at hfst
              simp [hfst]
            rw [this] at hp
            exact hp)
        simp [mapDelete, mapDelete_of_get_none this]
      · simp [mapGet, ha] at h
        have : nodupKeys t := hnd'.2
        simp [mapDelete, ha, ih this h]

/-! Claim theorems: the address codec and stop idempotence. -/

/-- C3: the address codec round-trips — for every `baseId` strictly below
10,000,000,000 and every supported quality band, decoding
`baseId + qualityOffset band` (offsets 0 / 10,000,000,000 / 20,000,000,000)
recovers exactly `(baseId, band)`; the decoder tests the offsets from largest
to smallest and subtracts the matching one. -/
theorem streamId_codec_roundtrip (baseId : Nat) (band : QualityBand)
    (h : baseId < 10000000000) :
    decodeStreamId (encodeStreamId baseId band) = (baseId, band) := by
  rcases band with _ | _ | _ <;>
    · simp only [encodeStreamId, decodeStreamId, qualityOffset,
        QUALITY_OFFSET_720P, QUALITY_OFFSET_480P]
      split_ifs <;> simp_all <;> omega

/-- Witness for `streamId_codec_roundtrip` at the spec's own scenario:
baseId 12345 in the 720p band encodes to 10000012345 and decodes back. -/
theorem streamId_codec_roundtrip_witness :
    12345 < 10000000000 ∧
      encodeStreamId 12345 QualityBand.p720 = 10000012345 ∧
      decodeStreamId (encodeStreamId 12345 QualityBand.p720) =
        (12345, QualityBand.p720) :=
  ⟨by decide, by decide,
   streamId_codec_roundtrip 12345 QualityBand.p720 (by decide)⟩

/-- C4: `stopStream` is idempotent — once the session has been stopped and
removed (its process exited), a second `stopStream` call returns the
"Stream not running" result without throwing and issues no further signal,
the pending grace escalation sends no `SIGKILL` either, any single call sends
at most one signal, and stopping a channel that is not running is a no-op. -/
theorem stopStream_idempotent (s : ManagerState) (channel : String) :
    stopStream (processExit s channel) channel =
        ({ success := false, error := some "Stream not running" }, []) ∧
      forceKillCheck (processExit s channel) channel = [] ∧
      (stopStream s channel).2.length ≤ 1 ∧
      (mapGet s.activeStreams channel = none →
        stopStream s channel =
          ({ success := false, error := some "Stream not running" }, [])) := by
  have hdel : mapGet (mapDelete s.activeStreams channel) channel = none :=
    mapGet_mapDelete_self s.activeStreams channel
  refine ⟨?_, ?_, ?_, ?_⟩
  · simp [stopStream, processExit, hdel]
  · simp [forceKillCheck, processExit, hdel]
  · unfold stopStream
    cases mapGet s.activeStreams channel <;> simp
  · intro h
    simp [stopStream, h]

/-- Witness for `stopStream_idempotent`: stopping `"chan"` on a manager with
no sessions is a no-op failure result with no kill signal. -/
theorem stopStream_idempotent_witness :
    stopStream mgrEmpty "chan" =
      ({ success := false, error := some "Stream not running" }, []) :=
  (stopStream_idempotent mgrEmpty "chan").2.2.2 (by decide)

/-! Properties of the oldest-scan loop. -/

theorem oldestFold_eq_none {p : String → StreamData → Bool} :
    ∀ (l : List (String × StreamData)) (acc : Option (String × Nat)),
      l.foldl (oldestStep p) acc = none →
        acc = none ∧ ∀ e ∈ l, p e.1 e.2 = false := by
  intro l
  induction l with
  | nil =>
      intro acc h
      simp at h
      exact ⟨h, by simp⟩
  | cons e t ih =>
      intro acc h
      rw [List.foldl_cons] at h
      obtain ⟨hstep, htail⟩ := ih _ h
      unfold oldestStep at hstep
      split at hstep
      · exact absurd hstep (by simp)
      · next hcond =>
          subst hstep
          simp [accBeats] at hcond
          refine ⟨rfl, ?_⟩
          intro e' he'
          rcases List.mem_cons.mp he' with h1 | h1
          · subst h1; exact hcond
          · exact htail e' h1

theorem oldestFold_of_all_false {p : String → StreamData → Bool} :
    ∀ (l : List (String × StreamData)) (acc : Option (String × Nat)),
      (∀ e ∈ l, p e.1 e.2 = false) →
        l.foldl (oldestStep p) acc = acc := by
  intro l
  induction l with
  | nil => intro acc _; simp
  | cons e t ih =>
      intro acc hall
      rw [List.foldl_cons]
      have he : p e.1 e.2 = false := hall e (List.mem_cons_self e t)
      have hstep : oldestStep p acc e = acc := by
        unfold oldestStep
        rw [he]
        simp
      rw [hstep]
      exact ih acc (fun e' h' => hall e' (List.mem_cons_of_mem e h'))

theorem oldestFold_some_spec {p : String → StreamData → Bool} :
    ∀ (l : List (String × StreamData)) (acc : Option (String × Nat))
      (c : String) (t0 : Nat),
      l.foldl (oldestStep p) acc = some (c, t0) →
        ((acc = some (c, t0)) ∨
          ∃ sd, (c, sd) ∈ l ∧ p c sd = true ∧ sd.startedAt = t0) ∧
        (∀ e ∈ l, p e.1 e.2 = true → t0 ≤ e.2.startedAt) ∧
        (∀ c1 t1, acc = some (c1, t1) → t0 ≤ t1) := by
  intro l
  induction l with
  | nil =>
      intro acc c t0 h
      simp at h
      refine ⟨Or.inl h, by simp, ?_⟩
      intro c1 t1 h1
      rw [h] at h1
      cases h1
      exact le_refl _
  | cons e t ih =>
      intro acc c t0 h
      rw [List.foldl_cons] at h
      obtain ⟨hsrc, hmin, hacc⟩ := ih _ c t0 h
      by_cases hc : (p e.1 e.2 && accBeats acc e.2.startedAt) = true
      · -- the step replaced the accumulator with this entry
        have hstep : oldestStep p acc e = some (e.1, e.2.startedAt) := by
          unfold oldestStep
          rw [if_pos hc]
        rw [hstep] at hsrc hacc
        obtain ⟨hpe, hbet⟩ : p e.1 e.2 = true ∧
            accBeats acc e.2.startedAt = true := by simpa using hc
        have ht0e : t0 ≤ e.2.startedAt := hacc e.1 e.2.startedAt rfl
        refine ⟨?_, ?_, ?_⟩
        · rcases hsrc with h1 | h1
          · cases h1
            exact Or.inr ⟨e.2, by simp, hpe, rfl⟩
          · obtain ⟨sd, hmem, hp, hst⟩ := h1
            exact Or.inr ⟨sd, List.mem_cons_of_mem e hmem, hp, hst⟩
        · intro e' he' hp'
          rcases List.mem_cons.mp he' with h1 | h1
          · subst h1; exact ht0e
          · exact hmin e' h1 hp'
        · intro c1 t1 h1
          rw [h1] at hbet
          unfold accBeats at hbet
          simp at hbet
          exact le_trans ht0e (le_of_lt hbet)
      · -- the step kept the accumulator
        have hstep : oldestStep p acc e = acc := by
          unfold oldestStep
          rw [if_neg hc]
        rw [hstep] at hsrc hacc
        refine ⟨?_, ?_, ?_⟩
        · rcases hsrc with h1 | h1
          · exact Or.inl h1
          · obtain ⟨sd, hmem, hp, hst⟩ := h1
            exact Or.inr ⟨sd, List.mem_cons_of_mem e hmem, hp, hst⟩
        · intro e' he' hp'
          rcases List.mem_cons.mp he' with h1 | h1
          · -- the head passed the filter but did not improve on the
            -- accumulator, so the accumulator is at most as old
            subst h1
            have hbet : ¬accBeats acc e'.2.startedAt = true := by
              intro hb
              exact hc (by rw [hp', hb]; simp)
            rw [Bool.not_eq_true] at hbet
            cases acc with
            | none => simp [accBeats] at hbet
            | some pr =>
                obtain ⟨c2, t2⟩ := pr
                unfold accBeats at hbet
                simp at hbet
                exact le_trans (hacc c2 t2 rfl) hbet
          · exact hmin e' h1 hp'
        · exact hacc

theorem oldestScan_some_spec {p : String → StreamData → Bool}
    {l : List (String × StreamData)} {c : String} {t0 : Nat}
    (h : oldestScan p l = some (c, t0)) :
    (∃ sd, (c, sd) ∈ l ∧ p c sd = true ∧ sd.startedAt = t0) ∧
      ∀ e ∈ l, p e.1 e.2 = true → t0 ≤ e.2.startedAt := by
  obtain ⟨hsrc, hmin, _⟩ := oldestFold_some_spec l none c t0 h
  rcases hsrc with h1 | h1
  · cases h1
  · exact ⟨h1, hmin⟩

theorem oldestScan_ne_none {p : String → StreamData → Bool}
    {l : List (String × StreamData)} {e : String × StreamData}
    (hmem : e ∈ l) (hp : p e.1 e.2 = true) : oldestScan p l ≠ none := by
  intro h
  obtain ⟨_, hall⟩ := oldestFold_eq_none l none h
  rw [hall e hmem] at hp
  cases hp

theorem oldestScan_eq_none_of_all_false {p : String → StreamData → Bool}
    {l : List (String × StreamData)}
    (hall : ∀ e ∈ l, p e.1 e.2 = false) : oldestScan p l = none :=
  oldestFold_of_all_false l none hall

/-! The idle reaper never stops a session whose own registry key has a fresh
presence record: the invariant below survives every iteration of the sweep,
because entries only ever delete the record stored under their own key. -/

theorem autoStopFold_safe (now : Nat) (ch : String) (ci : ClientInfo)
    (hrecent : now ≤ ci.lastActivity + autoStopTimeoutMs) :
    ∀ (l : List (String × StreamData)) (acc : ManagerState × List String),
      mapGet acc.1.clientConnections ch = some ci → ch ∉ acc.2 →
        mapGet ((l.foldl (autoStopStep now) acc).1).clientConnections ch =
            some ci ∧
          ch ∉ (l.foldl (autoStopStep now) acc).2 := by
  intro l
  induction l with
  | nil => intro acc h1 h2; exact ⟨h1, h2⟩
  | cons e t ih =>
      intro acc h1 h2
      rw [List.foldl_cons]
      have hstep :
          mapGet ((autoStopStep now acc e).1).clientConnections ch =
              some ci ∧ ch ∉ (autoStopStep now acc e).2 := by
        unfold autoStopStep
        split
        · exact ⟨h1, h2⟩
        · by_cases heq : e.1 = ch
          · -- this very session: its record is fresh, so it is not stale
            have hstale : presenceStale acc.1.clientConnections e.1 now =
                false := by
              unfold presenceStale
              rw [heq, h1]
              simp
              omega
            rw [hstale]
            simp
            exact ⟨h1, h2⟩
          · split
            · -- some other session is stopped; its key differs from ours
              constructor
              · exact (mapGet_mapDelete_ne acc.1.clientConnections
                  (fun hh => heq hh.symm)).trans h1
              · simp
                exact ⟨h2, fun hh => heq hh.symm⟩
            · exact ⟨h1, h2⟩
      exact ih _ hstep.1 hstep.2

theorem checkAutoStop_recent_safe {s : ManagerState} {now : Nat}
    {ch : String} {ci : ClientInfo}
    (hget : mapGet s.clientConnections ch = some ci)
    (hrecent : now ≤ ci.lastActivity + autoStopTimeoutMs) :
    ch ∉ (checkAutoStop s now).2 :=
  (autoStopFold_safe now ch ci hrecent s.activeStreams (s, []) hget
    (by simp)).2

/-- C6: the code slip behind the reaper claim.  The session is stored under
the mixed-case key `"Foo"`; its presence record — created by
`trackClientConnect("Foo")`, which lowercases — sits under `"foo"` and shows
activity 1 ms before the sweep, well inside the 2-minute idle threshold.
Yet one `_checkAutoStop` sweep stops the session, because the sweep looks the
record up under the raw registry key (its sibling
`getOldestStreamWithoutClients` lowercases the key for the very same map). -/
theorem autoStop_reaps_despite_recent_activity :
    lowerStr "Foo" = "foo" ∧
      mapGet mgrMixedCase.clientConnections (lowerStr "Foo") =
        some ⟨1, 200000⟩ ∧
      (200001 : Nat) ≤ 200000 + autoStopTimeoutMs ∧
      autoStopTimeoutMs ≤ 200001 - sdFoo.startedAt ∧
      (checkAutoStop mgrMixedCase 200001).2 = ["Foo"] := by decide

/-- C10: `trackClientDisconnect` on a channel whose presence record (keyed by
the lowercased channel) has a positive count decrements the count by one and
refreshes `lastActivity` to now — so the disconnect counts as activity and
the reaper will not stop the session stored under that key for a full idle
threshold; when the record is absent or its count is zero the call changes
nothing, and counts never become negative. -/
theorem trackClientDisconnect_spec (s : ManagerState) (channel : String)
    (now : Nat) :
    (∀ ci : ClientInfo,
        mapGet s.clientConnections (lowerStr channel) = some ci →
        0 < ci.count →
          trackClientDisconnect s channel now =
              { s with clientConnections :=
                  mapSet s.clientConnections (lowerStr channel) ⟨ci.count - 1, now⟩ } ∧
            0 ≤ ci.count - 1 ∧
            ∀ t, t ≤ now + autoStopTimeoutMs →
              lowerStr channel ∉
                (checkAutoStop (trackClientDisconnect s channel now) t).2) ∧
      (mapGet s.clientConnections (lowerStr channel) = none →
        trackClientDisconnect s channel now = s) ∧
      (∀ ci : ClientInfo,
        mapGet s.clientConnections (lowerStr channel) = some ci →
        ci.count ≤ 0 → trackClientDisconnect s channel now = s) ∧
      ((∀ k ci, mapGet s.clientConnections k = some ci → 0 ≤ ci.count) →
        ∀ k ci,
          mapGet (trackClientDisconnect s channel now).clientConnections k =
              some ci → 0 ≤ ci.count) := by
  refine ⟨?_, ?_, ?_, ?_⟩
  · intro ci hget hpos
    have heq : trackClientDisconnect s channel now =
        { s with clientConnections :=
            mapSet s.clientConnections (lowerStr channel) ⟨ci.count - 1, now⟩ } := by
      simp [trackClientDisconnect, hget, hpos]
    refine ⟨heq, by omega, ?_⟩
    intro t ht
    have hget' : mapGet
        (trackClientDisconnect s channel now).clientConnections
        (lowerStr channel) = some ⟨ci.count - 1, now⟩ := by
      rw [heq]
      exact mapGet_mapSet_self s.clientConnections (lowerStr channel) _
    exact checkAutoStop_recent_safe hget' ht
  · intro hget
    simp [trackClientDisconnect, hget]
  · intro ci hget hle
    simp [trackClientDisconnect, hget, show ¬(0 : Int) < ci.count from by omega]
  · intro hall k ci hget
    cases h0 : mapGet s.clientConnections (lowerStr channel) with
    | none =>
        simp [trackClientDisconnect, h0] at hget
        exact hall k ci hget
    | some ci0 =>
        by_cases hpos : 0 < ci0.count
        · simp [trackClientDisconnect, h0, hpos] at hget
          by_cases hk : k = lowerStr channel
          · subst hk
            rw [mapGet_mapSet_self] at hget
            cases hget
            simp
            have := hall (lowerStr channel) ci0 h0
            omega
          · rw [mapGet_mapSet_ne _ _ hk] at hget
            exact hall k ci hget
        · simp [trackClientDisconnect, h0, hpos] at hget
          exact hall k ci hget

/-- Witness for `trackClientDisconnect_spec`: disconnecting one of the two
clients of `"Chan"` leaves count 1, refreshes activity to time 2000, and the
reaper sweep at time 100000 does not stop the session keyed `"chan"`. -/
theorem trackClientDisconnect_spec_witness :
    trackClientDisconnect mgrTracked "Chan" 2000 =
        { mgrTracked with
            clientConnections :=
              mapSet mgrTracked.clientConnections (lowerStr "Chan") ⟨1, 2000⟩ } ∧
      lowerStr "Chan" ∉
        (checkAutoStop (trackClientDisconnect mgrTracked "Chan" 2000)
            100000).2 := by
  have h := (trackClientDisconnect_spec mgrTracked "Chan" 2000).1 ⟨2, 1000⟩
    (by decide) (by decide)
  exact ⟨h.1.trans (by decide), h.2.2 100000 (by decide)⟩

/-- C7: when a start request arrives with the registry at capacity, the
session picked for eviction is the one with the oldest start time among
sessions with no presence activity in the last 60 seconds; when every
session has recent activity the globally oldest session is picked instead —
so a victim always exists, the request is always admitted, and the new start
only begins after the 500 ms wait. -/
theorem admission_eviction_policy (cfg : ServerConfig) (s : ManagerState)
    (now : Nat) (hcap : maxStreams cfg ≤ s.activeStreams.length) :
    (onDemandAdmission cfg s now).waitMs = 500 ∧
      ∃ v sdv, (onDemandAdmission cfg s now).victim = some v ∧
        (v, sdv) ∈ s.activeStreams ∧
        ((hasRecentActivity s now v = false ∧
            ∀ e ∈ s.activeStreams, hasRecentActivity s now e.1 = false →
              sdv.startedAt ≤ e.2.startedAt) ∨
          ((∀ e ∈ s.activeStreams, hasRecentActivity s now e.1 = true) ∧
            ∀ e ∈ s.activeStreams, sdv.startedAt ≤ e.2.startedAt)) := by
  have hvic : (onDemandAdmission cfg s now).victim = evictionVictim s now ∧
      (onDemandAdmission cfg s now).waitMs = 500 := by
    unfold onDemandAdmission
    rw [if_pos hcap]
    exact ⟨rfl, rfl⟩
  refine ⟨hvic.2, ?_⟩
  rw [hvic.1]
  have hne : s.activeStreams ≠ [] := by
    intro hnil
    rw [hnil] at hcap
    simp [maxStreams] at hcap
  unfold evictionVictim
  cases hold : getOldestStreamWithoutClients s now with
  | some ch =>
      unfold getOldestStreamWithoutClients at hold
      rw [Option.map_eq_some'] at hold
      obtain ⟨⟨c, t0⟩, hscan, hfst⟩ := hold
      obtain ⟨⟨sd, hmem, hp, hst⟩, hmin⟩ := oldestScan_some_spec hscan
      refine ⟨ch, sd, rfl, by rwa [← hfst], Or.inl ⟨?_, ?_⟩⟩
      · cases hfst
        simpa using hp
      · intro e he hne'
        rw [hst]
        exact hmin e he (by simpa using hne')
  | none =>
      unfold getOldestStreamWithoutClients at hold
      rw [Option.map_eq_none'] at hold
      have hall := (oldestFold_eq_none s.activeStreams none hold).2
      have hallrec : ∀ e ∈ s.activeStreams,
          hasRecentActivity s now e.1 = true := by
        intro e he
        have := hall e he
        simpa using this
      obtain ⟨e0, he0⟩ := List.exists_mem_of_ne_nil s.activeStreams hne
      have hgo : globallyOldestChannel s ≠ none := by
        unfold globallyOldestChannel
        intro hmap
        rw [Option.map_eq_none'] at hmap
        exact oldestScan_ne_none he0 rfl hmap
      cases hgo2 : globallyOldestChannel s with
      | none => exact absurd hgo2 hgo
      | some ch =>
          unfold globallyOldestChannel at hgo2
          rw [Option.map_eq_some'] at hgo2
          obtain ⟨⟨c, t0⟩, hscan, hfst⟩ := hgo2
          obtain ⟨⟨sd, hmem, _, hst⟩, hmin⟩ := oldestScan_some_spec hscan
          refine ⟨ch, sd, rfl, by rwa [← hfst], Or.inr ⟨hallrec, ?_⟩⟩
          intro e he
          rw [hst]
          exact hmin e he rfl

/-- Witness for `admission_eviction_policy`: pool width 2, both slots full,
session `"a"` idle and `"b"` active — the decision evicts some qualifying
session after a 500 ms wait. -/
theorem admission_eviction_policy_witness :
    (onDemandAdmission cfgTwo mgrFullTwo 200000).waitMs = 500 ∧
      ∃ v sdv, (onDemandAdmission cfgTwo mgrFullTwo 200000).victim = some v ∧
        (v, sdv) ∈ mgrFullTwo.activeStreams ∧
        ((hasRecentActivity mgrFullTwo 200000 v = false ∧
            ∀ e ∈ mgrFullTwo.activeStreams,
              hasRecentActivity mgrFullTwo 200000 e.1 = false →
                sdv.startedAt ≤ e.2.startedAt) ∨
          ((∀ e ∈ mgrFullTwo.activeStreams,
              hasRecentActivity mgrFullTwo 200000 e.1 = true) ∧
            ∀ e ∈ mgrFullTwo.activeStreams,
              sdv.startedAt ≤ e.2.startedAt)) :=
  admission_eviction_policy cfgTwo mgrFullTwo 200000 (by decide)

/-! The eviction victim is always one of the registered sessions. -/

theorem evictionVictim_mem {s : ManagerState} {now : Nat} {v : String}
    (h : evictionVictim s now = some v) :
    ∃ sd, (v, sd) ∈ s.activeStreams := by
  unfold evictionVictim at h
  cases hold : getOldestStreamWithoutClients s now with
  | some ch =>
      rw [hold] at h
      cases h
      unfold getOldestStreamWithoutClients at hold
      rw [Option.map_eq_some'] at hold
      obtain ⟨⟨c, t0⟩, hscan, hfst⟩ := hold
      obtain ⟨⟨sd, hmem, _, _⟩, _⟩ := oldestScan_some_spec hscan
      exact ⟨sd, by rwa [← hfst]⟩
  | none =>
      rw [hold] at h
      unfold globallyOldestChannel at h
      rw [Option.map_eq_some'] at h
      obtain ⟨⟨c, t0⟩, hscan, hfst⟩ := h
      obtain ⟨⟨sd, hmem, _, _⟩, _⟩ := oldestScan_some_spec hscan
      exact ⟨sd, by rwa [← hfst]⟩

theorem evictionVictim_isSome (s : ManagerState) (now : Nat)
    (hne : s.activeStreams ≠ []) : (evictionVictim s now).isSome := by
  unfold evictionVictim
  cases hold : getOldestStreamWithoutClients s now with
  | some ch => rfl
  | none =>
      obtain ⟨e0, he0⟩ := List.exists_mem_of_ne_nil s.activeStreams hne
      unfold globallyOldestChannel
      cases hscan : oldestScan (fun _ _ => true) s.activeStreams with
      | none => exact absurd hscan (oldestScan_ne_none he0 rfl)
      | some pr => rfl

theorem trackClientConnect_activeStreams (s : ManagerState) (channel : String)
    (now : Nat) :
    (trackClientConnect s channel now).activeStreams = s.activeStreams := by
  cases h : mapGet s.clientConnections (lowerStr channel) <;>
    simp [trackClientConnect, h]

/-- C2 counterexample: with a one-port pool already holding a session, the
`/api/stream/start` route — which calls `startStream` directly, with no
capacity branch — admits a second distinct key, pushing the registry to 2
sessions, above the port-range width 1.  The claimed bound therefore does not
hold for every operation that starts a stream. -/
theorem apiStart_exceeds_port_range :
    maxStreams cfgOne = 1 ∧
      mgrFullOne.activeStreams.length = 1 ∧
      (startStreamResolved cfgOne mgrFullOne "b" none 5).activeStreams.length
        = 2 := by decide

/-- C2 (amended): on the `/stream/:channel` on-demand route — where the
capacity branch runs and the evicted process exits during the 500 ms wait —
the registry size never exceeds the port-range width, and admitting a fresh
key at capacity evicts exactly one existing session, leaving the size at
exactly the width.  (`/api/stream/start` performs no such check and can
exceed the bound.) -/
theorem onDemand_capacity_invariant (cfg : ServerConfig) (s : ManagerState)
    (channel : String) (quality : Option String) (now : Nat)
    (hnd : nodupKeys s.activeStreams)
    (hlen : s.activeStreams.length ≤ maxStreams cfg) :
    (onDemandStartResolved cfg s channel quality now).activeStreams.length ≤
        maxStreams cfg ∧
      (s.activeStreams.length = maxStreams cfg →
        mapGet s.activeStreams channel = none →
        ∃ v sd, (v, sd) ∈ s.activeStreams ∧
          mapGet (onDemandStartResolved cfg s channel quality
              now).activeStreams v = none ∧
          (onDemandStartResolved cfg s channel quality
              now).activeStreams.length = maxStreams cfg) := by
  cases hpres : mapGet s.activeStreams channel with
  | some sd0 =>
      have hrun : onDemandStartResolved cfg s channel quality now =
          trackClientConnect s channel now := by
        unfold onDemandStartResolved
        rw [hpres]
        simp
      rw [hrun, trackClientConnect_activeStreams]
      exact ⟨hlen, fun _ habs => by simp [hpres] at habs⟩
  | none =>
      by_cases hat : maxStreams cfg ≤ s.activeStreams.length
      · -- at capacity: evict, then start
        have hlen' : s.activeStreams.length = maxStreams cfg :=
          le_antisymm hlen hat
        have hne : s.activeStreams ≠ [] := by
          intro hnil
          rw [hnil] at hlen'
          simp [maxStreams] at hlen'
        obtain ⟨v, hv⟩ := Option.isSome_iff_exists.mp
          (evictionVictim_isSome s now hne)
        obtain ⟨sdv, hsdv⟩ := evictionVictim_mem hv
        have hvch : v ≠ channel := by
          intro hh
          subst hh
          have := isSome_mapGet_of_mem hsdv
          rw [hpres] at this
          cases this
        have hvget := isSome_mapGet_of_mem hsdv
        obtain ⟨sdv', hsdv'⟩ := Option.isSome_iff_exists.mp hvget
        have hrun : onDemandStartResolved cfg s channel quality now =
            startStreamResolved cfg (processExit s v) channel quality now := by
          unfold onDemandStartResolved
          rw [hpres]
          simp [hat, hv]
        have hdlen : (mapDelete s.activeStreams v).length + 1 =
            s.activeStreams.length :=
          length_mapDelete_of_get hnd hsdv'
        have hdget : mapGet (mapDelete s.activeStreams v) channel = none := by
          rw [mapGet_mapDelete_ne s.activeStreams
            (fun hh => hvch hh.symm)]
          exact hpres
        have hstart : (startStreamResolved cfg (processExit s v) channel
            quality now).activeStreams =
            mapSet (mapDelete s.activeStreams v) channel
              { channel := channel, quality := quality.getD cfg.defaultQuality,
                port := (getNextPort cfg (processExit s v)).1,
                url := streamUrl cfg (getNextPort cfg (processExit s v)).1,
                startedAt := now } := by
          unfold startStreamResolved
          simp only [processExit] at hdget ⊢
          rw [hdget]
          simp [getNextPort]
        have hslen : (startStreamResolved cfg (processExit s v) channel
            quality now).activeStreams.length = maxStreams cfg := by
          rw [hstart, length_mapSet_absent _ hdget]
          omega
        refine ⟨by rw [hrun, hslen], fun _ _ => ⟨v, sdv, hsdv, ?_, ?_⟩⟩
        · rw [hrun, hstart,
            mapGet_mapSet_ne _ _ hvch, mapGet_mapDelete_self]
        · rw [hrun, hslen]
      · -- below capacity: just start
        have hrun : onDemandStartResolved cfg s channel quality now =
            startStreamResolved cfg s channel quality now := by
          unfold onDemandStartResolved
          rw [hpres]
          simp [hat]
        have hstart : (startStreamResolved cfg s channel quality
            now).activeStreams.length = s.activeStreams.length + 1 := by
          unfold startStreamResolved
          rw [hpres]
          simp [getNextPort]
          rw [length_mapSet_absent _ hpres]
        refine ⟨?_, fun hcap _ => absurd (le_of_eq hcap.symm) hat⟩
        rw [hrun, hstart]
        omega

/-- Witness for `onDemand_capacity_invariant`: the one-port pool holding
`"a"`, asked for `"b"` through the on-demand route, stays within its width
and evicts exactly one session. -/
theorem onDemand_capacity_invariant_witness :
    (onDemandStartResolved cfgOne mgrFullOne "b" none 5).activeStreams.length
        ≤ maxStreams cfgOne ∧
      ∃ v sd, (v, sd) ∈ mgrFullOne.activeStreams ∧
        mapGet (onDemandStartResolved cfgOne mgrFullOne "b" none
            5).activeStreams v = none ∧
        (onDemandStartResolved cfgOne mgrFullOne "b" none
            5).activeStreams.length = maxStreams cfgOne := by
  have h := onDemand_capacity_invariant cfgOne mgrFullOne "b" none 5
    (by unfold nodupKeys; decide) (by decide)
  exact ⟨h.1, h.2 (by decide) (by decide)⟩

/-! Arithmetic of the cyclic port cursor. -/

theorem advanceCursor_mod (cfg : ServerConfig)
    (hse : cfg.streamPortStart ≤ cfg.streamPortEnd) (j : Nat) :
    advanceCursor cfg (cfg.streamPortStart + j % portWidth cfg) =
      cfg.streamPortStart + (j + 1) % portWidth cfg := by
  have hw : portWidth cfg = cfg.streamPortEnd - cfg.streamPortStart + 1 := rfl
  have hwpos : 0 < portWidth cfg := by rw [hw]; omega
  have hr : j % portWidth cfg < portWidth cfg := Nat.mod_lt _ hwpos
  have hmod : (j % portWidth cfg + 1) % portWidth cfg =
      (j + 1) % portWidth cfg := Nat.mod_add_mod j (portWidth cfg) 1
  by_cases hc : j % portWidth cfg + 1 = portWidth cfg
  · have h1 : (j + 1) % portWidth cfg = 0 := by
      rw [← hmod, hc, Nat.mod_self]
    unfold advanceCursor
    rw [h1]
    have hlt : cfg.streamPortEnd <
        cfg.streamPortStart + j % portWidth cfg + 1 := by omega
    rw [if_pos hlt]
    omega
  · have h1 : (j + 1) % portWidth cfg = j % portWidth cfg + 1 := by
      rw [← hmod]
      exact Nat.mod_eq_of_lt (by omega)
    unfold advanceCursor
    rw [h1]
    have hnlt : ¬cfg.streamPortEnd <
        cfg.streamPortStart + j % portWidth cfg + 1 := by omega
    rw [if_neg hnlt]
    omega

theorem iterAdvance_mod (cfg : ServerConfig)
    (hse : cfg.streamPortStart ≤ cfg.streamPortEnd) :
    ∀ (k j : Nat),
      iterAdvance cfg (cfg.streamPortStart + j % portWidth cfg) k =
        cfg.streamPortStart + (j + k) % portWidth cfg := by
  intro k
  induction k with
  | zero => intro j; simp [iterAdvance]
  | succ k ih =>
      intro j
      show iterAdvance cfg
          (advanceCursor cfg (cfg.streamPortStart + j % portWidth cfg)) k =
        cfg.streamPortStart + (j + (k + 1)) % portWidth cfg
      rw [advanceCursor_mod cfg hse j, ih (j + 1)]
      have harith : j + 1 + k = j + (k + 1) := by omega
      rw [harith]

theorem portCalls_eq_iter (cfg : ServerConfig) :
    ∀ (n : Nat) (s : ManagerState),
      portCalls cfg s n = (List.range n).map (iterAdvance cfg s.nextPort) := by
  intro n
  induction n with
  | zero => intro s; simp [portCalls]
  | succ n ih =>
      intro s
      rw [portCalls, ih]
      rw [List.range_succ_eq_map, List.map_cons, List.map_map]
      rfl

/-- C8: the port allocator is a pure cyclic cursor — each call returns the
cursor (always inside `[streamPortStart, streamPortEnd]` while the cursor is
in range), advances it by exactly one, wraps to `streamPortStart` right after
handing out `streamPortEnd`, and consults no free list: starting from a fresh
cursor, the `i`-th call returns `streamPortStart + i % width`, so a released
port is reissued only once the cursor laps back to it. -/
theorem getNextPort_cyclic (cfg : ServerConfig) (s : ManagerState)
    (hse : cfg.streamPortStart ≤ cfg.streamPortEnd)
    (hlo : cfg.streamPortStart ≤ s.nextPort)
    (hhi : s.nextPort ≤ cfg.streamPortEnd) :
    (getNextPort cfg s).1 = s.nextPort ∧
      cfg.streamPortStart ≤ (getNextPort cfg s).1 ∧
      (getNextPort cfg s).1 ≤ cfg.streamPortEnd ∧
      (getNextPort cfg s).2.nextPort =
        (if s.nextPort = cfg.streamPortEnd then cfg.streamPortStart
         else s.nextPort + 1) ∧
      (s.nextPort = cfg.streamPortStart →
        ∀ n, portCalls cfg s n =
          (List.range n).map
            (fun i => cfg.streamPortStart + i % portWidth cfg)) := by
  refine ⟨rfl, hlo, hhi, ?_, ?_⟩
  · unfold getNextPort
    by_cases hend : s.nextPort = cfg.streamPortEnd
    · rw [if_pos hend]
      simp
      omega
    · rw [if_neg hend]
      simp
      omega
  · intro hstart n
    rw [portCalls_eq_iter cfg n s]
    apply List.map_congr_left
    intro i _
    have h0 : s.nextPort = cfg.streamPortStart + 0 % portWidth cfg := by
      rw [hstart]
      simp
    rw [h0, iterAdvance_mod cfg hse i 0]
    simp

/-- Witness for `getNextPort_cyclic`: seven calls on the 3-port pool
9000–9002 hand out 9000, 9001, 9002, 9000, 9001, 9002, 9000. -/
theorem getNextPort_cyclic_witness :
    portCalls cfgThree mgrEmpty 7 =
        (List.range 7).map
          (fun i => cfgThree.streamPortStart + i % portWidth cfgThree) ∧
      portCalls cfgThree mgrEmpty 7 =
        [9000, 9001, 9002, 9000, 9001, 9002, 9000] := by
  have h := (getNextPort_cyclic cfgThree mgrEmpty (by decide) (by decide)
    (by decide)).2.2.2.2 (by decide) 7
  exact ⟨h, by decide⟩

/-- C1 counterexample: two `startStream("chan")` calls where the second
arrives while the first spawn is still in flight (no resolution in between).
`startStream` consults only `activeStreams`, which is populated at
resolution time, so the second call also spawns: two processes are
dispatched, on different ports with different URLs — not one shared
session. -/
theorem startStream_inflight_double_spawn :
    (startRequest cfgWide spawnIdle "chan" none 1000).1 =
        StartOutcome.spawned 9000 "http://192.168.1.2:9000/" ∧
      (startRequest cfgWide (startRequest cfgWide spawnIdle "chan" none
          1000).2 "chan" none 1001).1 =
        StartOutcome.spawned 9001 "http://192.168.1.2:9001/" ∧
      (startRequest cfgWide (startRequest cfgWide spawnIdle "chan" none
          1000).2 "chan" none 1001).2.spawnCount = 2 := by decide

/-- C1 (amended): `startStream` deduplicates only against completed sessions.
A second call for the same key arriving after the first spawn has resolved
spawns nothing further and receives the very session the first call
registered (same port, same URL), leaving the state untouched; but there is
no pending-start marker, so only resolution — not the in-flight spawn —
provides this guarantee (see `startStream_inflight_double_spawn`). -/
theorem startStream_dedup_after_resolve (cfg : ServerConfig) (st : SpawnState)
    (ch : String) (q : Option String) (n1 n2 : Nat)
    (habs : mapGet st.mgr.activeStreams ch = none)
    (hpend : ∀ p ∈ st.pendingSpawns, p.channel ≠ ch) :
    (startResolve (startRequest cfg st ch q n1).2 ch).spawnCount =
        st.spawnCount + 1 ∧
      ∃ sd : StreamData,
        (startRequest cfg st ch q n1).1 =
            StartOutcome.spawned sd.port sd.url ∧
          (startRequest cfg (startResolve (startRequest cfg st ch q n1).2 ch)
              ch q n2).1 = StartOutcome.alreadyRunning sd.port sd.url ∧
          (startRequest cfg (startResolve (startRequest cfg st ch q n1).2 ch)
              ch q n2).2 =
            startResolve (startRequest cfg st ch q n1).2 ch := by
  have hreq1 : startRequest cfg st ch q n1 =
      (StartOutcome.spawned (getNextPort cfg st.mgr).1
          (streamUrl cfg (getNextPort cfg st.mgr).1),
       { mgr := (getNextPort cfg st.mgr).2,
         pendingSpawns := st.pendingSpawns ++
           [{ channel := ch, quality := q.getD cfg.defaultQuality,
              port := (getNextPort cfg st.mgr).1,
              url := streamUrl cfg (getNextPort cfg st.mgr).1,
              startedAt := n1 }],
         spawnCount := st.spawnCount + 1 }) := by
    unfold startRequest
    rw [habs]
  have hfind : st.pendingSpawns.find?
      (fun p => decide (p.channel = ch)) = none := by
    rw [List.find?_eq_none]
    intro p hp
    simp [hpend p hp]
  have hres : (startResolve (startRequest cfg st ch q n1).2 ch).mgr.activeStreams =
      mapSet st.mgr.activeStreams ch
        { channel := ch, quality := q.getD cfg.defaultQuality,
          port := (getNextPort cfg st.mgr).1,
          url := streamUrl cfg (getNextPort cfg st.mgr).1,
          startedAt := n1 } ∧
      (startResolve (startRequest cfg st ch q n1).2 ch).spawnCount =
        st.spawnCount + 1 := by
    rw [hreq1]
    unfold startResolve
    rw [List.find?_append, hfind]
    simp [getNextPort]
  obtain ⟨hact, hcount⟩ := hres
  set st2 := startResolve (startRequest cfg st ch q n1).2 ch with hst2
  have hget2 : mapGet st2.mgr.activeStreams ch =
      some { channel := ch, quality := q.getD cfg.defaultQuality,
             port := (getNextPort cfg st.mgr).1,
             url := streamUrl cfg (getNextPort cfg st.mgr).1,
             startedAt := n1 } := by
    rw [hact]
    exact mapGet_mapSet_self _ _ _
  have hreq2 : startRequest cfg st2 ch q n2 =
      (StartOutcome.alreadyRunning (getNextPort cfg st.mgr).1
          (streamUrl cfg (getNextPort cfg st.mgr).1),
       st2) := by
    unfold startRequest
    rw [hget2]
  refine ⟨hcount,
    ⟨{ channel := ch, quality := q.getD cfg.defaultQuality,
       port := (getNextPort cfg st.mgr).1,
       url := streamUrl cfg (getNextPort cfg st.mgr).1,
       startedAt := n1 }, ?_, ?_, ?_⟩⟩
  · rw [hreq1]
  · rw [hreq2]
  · rw [hreq2]

/-- Witness for `startStream_dedup_after_resolve`: a fresh manager, one
spawn for `"chan"` that resolves, then a second call — one spawn total and
the same session handed back. -/
theorem startStream_dedup_after_resolve_witness :
    (startResolve (startRequest cfgWide spawnIdle "chan" none 1000).2
        "chan").spawnCount = 0 + 1 ∧
      ∃ sd : StreamData,
        (startRequest cfgWide spawnIdle "chan" none 1000).1 =
            StartOutcome.spawned sd.port sd.url ∧
          (startRequest cfgWide
              (startResolve (startRequest cfgWide spawnIdle "chan" none
                1000).2 "chan") "chan" none 2000).1 =
            StartOutcome.alreadyRunning sd.port sd.url ∧
          (startRequest cfgWide
              (startResolve (startRequest cfgWide spawnIdle "chan" none
                1000).2 "chan") "chan" none 2000).2 =
            startResolve (startRequest cfgWide spawnIdle "chan" none 1000).2
              "chan" :=
  startStream_dedup_after_resolve cfgWide spawnIdle "chan" none 1000 2000
    (by decide) (by intro p hp; simp [spawnIdle] at hp)

/-- C5: a rule whose criteria stop matching (channel offline or game filter
no longer matching) does not stop an active recording it does not own — the
evaluation leaves the recording state untouched and emits no stop signal;
only the owning rule's evaluation stops it. -/
theorem nonOwning_rule_does_not_stop (st : RecManagerState)
    (rule : RecordingRule) (liveStreams : List (String × TwitchStream))
    (now : Nat) (recording : RecordingInfo)
    (hrec : mapGet st.activeRecordings (lowerStr rule.channel_login) =
      some recording)
    (hown : recording.ruleId ≠ rule.id)
    (hfail : mapGet liveStreams (lowerStr rule.channel_login) = none ∨
      ∃ stream, mapGet liveStreams (lowerStr rule.channel_login) =
          some stream ∧ shouldRecord rule stream = false) :
    evalRule st rule liveStreams now = (st, []) := by
  by_cases hen : rule.enabled = false
  · simp [evalRule, hen]
  · rcases hfail with h | ⟨stream, hs, hnr⟩
    · simp [evalRule, hen, h, hrec, hown]
    · simp [evalRule, hen, hs, hnr, hrec, hown]

/-- Witness for `nonOwning_rule_does_not_stop`: rule 1 (filter "valorant")
evaluates while the channel plays Minecraft and rule 2's recording is
active — nothing is stopped, nothing changes. -/
theorem nonOwning_rule_does_not_stop_witness :
    evalRule recStateTwo ruleOne liveMinecraft 6000 = (recStateTwo, []) :=
  nonOwning_rule_does_not_stop recStateTwo ruleOne liveMinecraft 6000
    recByRuleTwo (by decide) (by decide)
    (Or.inr ⟨⟨"streamer", "Streamer", some "Minecraft", "building"⟩,
      by decide, by decide⟩)

/-- C9 counterexample: the whole retention sweep runs inside a single
`try { ... } catch`, so when deleting the first aged recording throws, the
second aged recording is not deleted and the orphan-file scan does not run —
the sweep does not continue with the remaining entries (the error is merely
logged and the function returns). -/
theorem cleanup_failure_not_continued :
    (cleanupOldRecordings [recBad, recGood] [orphanOld]).deletedRecordIds
        = [] ∧
      (cleanupOldRecordings [recBad, recGood] [orphanOld]).deletedFiles
        = [] ∧
      (cleanupOldRecordings [recBad, recGood]
          [orphanOld]).orphanScanRan = false ∧
      (cleanupOldRecordings [recBad, recGood]
          [orphanOld]).errorLogged.isSome = true := by decide

/-- C9 (amended): a deletion failure during the retention sweep is caught and
logged at sweep level and the sweep function returns normally, but the
current sweep stops there: entries before the failing one are already
deleted, entries after it and the orphan-file scan are skipped until the next
scheduled sweep. -/
theorem cleanup_error_aborts_sweep (pre post : List RecRecord)
    (bad : RecRecord) (orphans : List OrphanFile)
    (hpre : ∀ r ∈ pre, ¬(r.fileExists = true ∧ r.unlinkFails = true) ∧
      r.deleteRowFails = false)
    (hbad : (bad.fileExists = true ∧ bad.unlinkFails = true) ∨
      bad.deleteRowFails = true) :
    (cleanupOldRecordings (pre ++ bad :: post) orphans).deletedRecordIds =
        pre.map (fun r => r.id) ∧
      (cleanupOldRecordings (pre ++ bad :: post) orphans).orphanScanRan =
        false ∧
      (cleanupOldRecordings (pre ++ bad :: post)
          orphans).errorLogged.isSome = true := by
  have hsweep : (sweepRecords (pre ++ bad :: post)).1 =
      pre.map (fun r => r.id) ∧
      (sweepRecords (pre ++ bad :: post)).2.2.isSome = true := by
    induction pre with
    | nil =>
        simp only [List.nil_append, List.map_nil]
        rw [sweepRecords]
        by_cases h1 : bad.fileExists = true ∧ bad.unlinkFails = true
        · rw [if_pos h1]
          simp
        · rw [if_neg h1]
          rcases hbad with h2 | h2
          · exact absurd h2 h1
          · rw [if_pos h2]
            simp
    | cons r pre' ih =>
        have hr := hpre r (List.mem_cons_self r pre')
        have ih' := ih (fun r' hr' => hpre r' (List.mem_cons_of_mem r hr'))
        rw [List.cons_append, sweepRecords, if_neg hr.1, if_neg (by
          rw [hr.2]
          simp)]
        simp only [List.map_cons]
        exact ⟨by rw [ih'.1], ih'.2⟩
  obtain ⟨e, he⟩ := Option.isSome_iff_exists.mp hsweep.2
  simp [cleanupOldRecordings, he, hsweep.1]

/-- Witness for `cleanup_error_aborts_sweep`: the sweep deletes the good
first record, then aborts on the bad one, skipping the orphan scan. -/
theorem cleanup_error_aborts_sweep_witness :
    (cleanupOldRecordings ([recGood] ++ recBad :: [])
        [orphanOld]).deletedRecordIds = [recGood].map (fun r => r.id) ∧
      (cleanupOldRecordings ([recGood] ++ recBad :: [])
          [orphanOld]).orphanScanRan = false ∧
      (cleanupOldRecordings ([recGood] ++ recBad :: [])
          [orphanOld]).errorLogged.isSome = true :=
  cleanup_error_aborts_sweep [recGood] [] recBad [orphanOld]
    (by decide) (by decide)
